import Mathlib

/-!
Verification development for the travel-assistant memory program
(src/main.py).  The code is shallowly embedded: Python dicts become
association lists that preserve insertion order, the JSON backing file
becomes an abstract document model, and the unseeded randomness of the
flight generator becomes an explicit stream of natural-number draws that
is consumed head-first.  Machine integers do not occur (all numbers in
the program are small Python ints).
-/

namespace TravelAgent

/-- Hard-coded default user, `USER_ID = "Chris"` in main.py. -/
def USER_ID : String := "Chris"

/-! ### JSON values and the backing document

A JSON document, as produced by `json.load`.  The backing file is
modelled as `Option (Option Json)`: `none` means the file does not
exist, `some none` means it exists but its text does not parse
(`json.JSONDecodeError`), and `some (some j)` means `json.load`
returns the value `j`. -/

inductive Json where
  | null : Json
  | bool : Bool → Json
  | num : Int → Json
  | str : String → Json
  | arr : List Json → Json
  | obj : List (String × Json) → Json

/-- The backing document: absent, present-but-unparseable, or parsed. -/
abbrev FileContent := Option (Option Json)

/-! ### The in-memory preference store

`SimpleMemory.memory_store` is a dict mapping user id to a dict mapping
category to a list of strings.  Python dicts preserve insertion order
and append new keys at the end, so both levels are association lists. -/

abbrev Cats := List (String × List String)
abbrev Store := List (String × Cats)

/-- `d.get(k, default)` style lookup on an association list. -/
def lookupKey {β : Type} (k : String) : List (String × β) → Option β
  | [] => none
  | (k', v) :: rest => if k' = k then some v else lookupKey k rest

/-- `d.setdefault(k, dflt)`: inserts `(k, dflt)` at the end when the key
is absent, leaves the list unchanged otherwise. -/
def setdefaultKey {β : Type} (k : String) (dflt : β) :
    List (String × β) → List (String × β)
  | [] => [(k, dflt)]
  | (k', v) :: rest =>
    if k' = k then (k', v) :: rest else (k', v) :: setdefaultKey k dflt rest

/-- In-place mutation of the value stored at an existing key `k`
(`d[k] = f(d[k])`); no effect when the key is absent. -/
def updateKey {β : Type} (k : String) (f : β → β) :
    List (String × β) → List (String × β)
  | [] => []
  | (k', v) :: rest =>
    if k' = k then (k', f v) :: rest else (k', v) :: updateKey k f rest

/-- `SimpleMemory.search_by_category`: `memory_store.get(user_id, {})`
then `.get(category, [])`. -/
def search_by_category (st : Store) (user_id category : String) :
    List String :=
  (lookupKey category ((lookupKey user_id st).getD [])).getD []

/-- The pure part of `SimpleMemory.add`: the two `setdefault` calls, the
membership test and the conditional append.  Returns the new store and
whether `_save_to_file` was invoked (the append branch was taken). -/
def memAdd (st : Store) (user_id category data : String) : Store × Bool :=
  let st1 := updateKey user_id (setdefaultKey category [])
               (setdefaultKey user_id [] st)
  let cur := search_by_category st1 user_id category
  if data ∈ cur then (st1, false)
  else (updateKey user_id (updateKey category (fun l => l ++ [data])) st1, true)

/-! ### Serialisation to the backing document -/

/-- `json.dump` of the store: nested JSON objects with string arrays. -/
def storeToJson (st : Store) : Json :=
  Json.obj (st.map fun p =>
    (p.1, Json.obj (p.2.map fun q => (q.1, Json.arr (q.2.map Json.str)))))

/-- Decode a JSON array of strings (fails on anything else). -/
def decodeVals : List Json → Option (List String)
  | [] => some []
  | Json.str s :: rest => (decodeVals rest).map (fun vs => s :: vs)
  | _ => none

/-- Decode the category level of the store. -/
def decodeCats : List (String × Json) → Option Cats
  | [] => some []
  | (c, Json.arr xs) :: rest =>
    match decodeVals xs, decodeCats rest with
    | some vs, some r => some ((c, vs) :: r)
    | _, _ => none
  | _ => none

/-- Decode the user level of the store. -/
def decodeUsers : List (String × Json) → Option Store
  | [] => some []
  | (u, Json.obj kvs) :: rest =>
    match decodeCats kvs, decodeUsers rest with
    | some cs, some r => some ((u, cs) :: r)
    | _, _ => none
  | _ => none

/-- Decode a JSON document as the expected store structure: a mapping
from user to a mapping from category to a list of strings. -/
def decodeStore : Json → Option Store
  | Json.obj kvs => decodeUsers kvs
  | _ => none

/-- `SimpleMemory._load_from_file`: missing file gives `{}`, a
`json.JSONDecodeError` gives `{}`, and otherwise whatever `json.load`
produced is returned unchanged (only `JSONDecodeError` is caught). -/
def load_from_file : FileContent → Json
  | none => Json.obj []
  | some none => Json.obj []
  | some (some j) => j

/-! ### The stateful memory object -/

/-- State of a `SimpleMemory` instance together with its backing file. -/
structure MemState where
  store : Store
  file : FileContent

/-- `SimpleMemory._save_to_file`: rewrites the whole document. -/
def save_to_file (st : MemState) : MemState :=
  { st with file := some (some (storeToJson st.store)) }

/-- `SimpleMemory.add` acting on the full state.  Returns the new state,
whether the store was flushed to the file, and the Python return value
(the function always ends in `return True`). -/
def addState (st : MemState) (u c d : String) : MemState × Bool × Bool :=
  let r := memAdd st.store u c d
  if r.2 then (save_to_file { st with store := r.1 }, true, true)
  else ({ st with store := r.1 }, false, true)

/-! ### Tool gateway

`save_user_preference` and `retrieve_user_preferences` read an ambient
user binding: `getattr(fn, "user_id", USER_ID)`.  The binding is
modelled as `Option String`; `none` means no `user_id` attribute was
ever set on the function, in which case the hard-coded `USER_ID`
default applies.

File writes can fail (disk full, permissions).  `_save_to_file` has no
exception handling, so a raised `OSError` propagates; the embedding
threads a `writeOk : Bool` describing the disk and returns `Except`. -/

/-- A Python exception escaping a tool function. -/
inductive PyErr where
  | oserror : PyErr
  deriving DecidableEq, Repr

/-- Fallible `SimpleMemory._save_to_file`: the `open`/`json.dump` pair
either rewrites the document or raises. -/
def save_to_file_io (writeOk : Bool) (st : MemState) :
    Except PyErr MemState :=
  if writeOk then Except.ok { st with file := some (some (storeToJson st.store)) }
  else Except.error PyErr.oserror

/-- `SimpleMemory.add` with a fallible flush.  A raised exception in
`_save_to_file` propagates out of `add`; otherwise `add` returns True. -/
def add_io (writeOk : Bool) (st : MemState) (u c d : String) :
    Except PyErr (MemState × Bool) :=
  let r := memAdd st.store u c d
  if r.2 then
    match save_to_file_io writeOk { st with store := r.1 } with
    | Except.ok st2 => Except.ok (st2, true)
    | Except.error e => Except.error e
  else Except.ok ({ st with store := r.1 }, true)

/-- Result dict of `save_user_preference`. -/
structure SaveResult where
  status : String
  message : String
  deriving DecidableEq, Repr

/-- The message `f"Preference saved in category '{category}'."`. -/
def save_message (category : String) : String :=
  "Preference saved in category \x27" ++ category ++ "\x27."

/-- `save_user_preference(category, preference)`: resolves the ambient
user (default `USER_ID`), delegates to `add`, and returns the success
dict.  An exception raised by the flush escapes unhandled. -/
def save_user_preference (writeOk : Bool) (ambient : Option String)
    (category preference : String) (st : MemState) :
    Except PyErr (MemState × SaveResult) :=
  let user_id := ambient.getD USER_ID
  match add_io writeOk st user_id category preference with
  | Except.ok (st', _) =>
    Except.ok (st', { status := "success", message := save_message category })
  | Except.error e => Except.error e

/-- Result dict of `retrieve_user_preferences`. -/
structure RetrieveResult where
  status : String
  preferences : List String
  count : Nat
  deriving DecidableEq, Repr

/-- `retrieve_user_preferences(category)`: resolves the ambient user
(default `USER_ID`) and reads the store.  Never fails. -/
def retrieve_user_preferences (ambient : Option String)
    (category : String) (st : MemState) : RetrieveResult :=
  let user_id := ambient.getD USER_ID
  let results := search_by_category st.store user_id category
  { status := "success", preferences := results, count := results.length }

/-! ### The flight generator

`find_flights` draws from Python `random` and from `datetime.now()`.
The embedding makes both explicit: `now` is the current time in minutes
and `rng : List Nat` is the stream of raw random draws, consumed
head-first.  `random.randint(lo, hi)` (inclusive on both ends) maps a
raw draw `n` to `lo + n % (hi + 1 - lo)`; `random.choice(l)` maps it to
the element at index `n % l.length`.  An exhausted stream yields the
lower bound / first element, which keeps every draw inside its range. -/

/-- `random.randint(lo, hi)`: a uniform integer with both ends
included. -/
def randint (lo hi : Nat) (rng : List Nat) : Nat × List Nat :=
  match rng with
  | [] => (lo, [])
  | n :: rest => (lo + n % (hi + 1 - lo), rest)

/-- `random.choice(pool)` for a pool of airline names. -/
def choice (pool : List String) (rng : List Nat) : String × List Nat :=
  match rng with
  | [] => (pool.getD 0 "", [])
  | n :: rest => (pool.getD (n % pool.length) "", rest)

/-- The fixed catalogue `all_airlines` of main.py. -/
def all_airlines : List String :=
  ["Delta", "Qatar Airways", "Singapore Airlines", "Ryanair",
   "Lufthansa", "Emirates"]

/-- Is `needle` a prefix of `hay` (character lists)? -/
def isPrefixL : List Char → List Char → Bool
  | [], _ => true
  | _ :: _, [] => false
  | a :: as, b :: bs => a = b && isPrefixL as bs

/-- Python substring test `needle in hay` on character lists. -/
def containsSub (needle : List Char) : List Char → Bool
  | [] => needle.isEmpty
  | b :: rest => isPrefixL needle (b :: rest) || containsSub needle rest

/-- `airline.lower() in pref.lower()`: case-insensitive substring test.
Mapping `Char.toLower` over the characters matches `str.lower` on the
ASCII catalogue names. -/
def subMatch (airline pref : String) : Bool :=
  containsSub (airline.data.map Char.toLower) (pref.data.map Char.toLower)

/-- The preference scan of `find_flights`: for each preference in list
order, try every catalogue airline in catalogue order; the first hit
wins and both loops break. -/
def pick_airline : List String → Option String
  | [] => none
  | p :: rest =>
    match all_airlines.find? (fun a => subMatch a p) with
    | some a => some a
    | none => pick_airline rest

/-- Reference rendering of the claim wording, to be compared with
`pick_airline`: the first case-insensitive substring match, in
preference-list order, then catalogue order. -/
def first_match_spec (ps : List String) : Option String :=
  ps.findSome? (fun p => all_airlines.find? (fun a => subMatch a p))

/-- The `preferred_airline` variable after the scan: `None` when
`preferences` is `None` or empty (`if preferences:` is falsy) or when
no preference matches. -/
def preferred_airline (preferences : Option (List String)) :
    Option String :=
  match preferences with
  | none => none
  | some ps => pick_airline ps

/-- `airline[:2].upper()`: the two-letter airline-code prefixing the
flight number. -/
def upper2 (s : String) : String :=
  String.mk ((s.data.take 2).map Char.toUpper)

/-- A synthesized flight offer before string rendering: times are kept
as absolute minutes (`datetime.now() + timedelta(hours=h)`), the price
as a number. -/
structure Offer where
  airline : String
  flight_number : String
  departure_min : Nat
  arrival_min : Nat
  price : Nat
  notes : String
  deriving DecidableEq, Repr

/-- One flight-offer dict literal: draws the flight number, the
departure offset, the arrival offset and the price, in source order. -/
def mkOffer (now : Nat) (al : String) (depLo depHi arrLo arrHi prLo prHi : Nat)
    (notes : String) (rng : List Nat) : Offer × List Nat :=
  let t1 := randint 100 999 rng
  let t2 := randint depLo depHi t1.2
  let t3 := randint arrLo arrHi t2.2
  let t4 := randint prLo prHi t3.2
  ({ airline := al,
     flight_number := upper2 al ++ toString t1.1,
     departure_min := now + 60 * t2.1,
     arrival_min := now + 60 * t3.1,
     price := t4.1,
     notes := notes }, t4.2)

/-- The `for _ in range(k)` loop appending standard options: each
iteration draws an airline from `pool`, then builds one offer with the
standard ranges. -/
def standardOffers (now : Nat) (pool : List String) :
    Nat → List Nat → List Offer × List Nat
  | 0, rng => ([], rng)
  | Nat.succ k, rng =>
    let c := choice pool rng
    let o := mkOffer now c.1 2 12 14 20 400 1500 "Standard option" c.2
    let s := standardOffers now pool k o.2
    (o.1 :: s.1, s.2)

/-- `find_flights` up to string rendering: the preferred offer (when a
preferred airline was found), then `randint(1, 2)` standard offers for
airlines other than the preferred one. -/
def find_flights_raw (now : Nat) (rng : List Nat)
    (preferences : Option (List String)) : List Offer × List Nat :=
  match preferred_airline preferences with
  | some a =>
    let t := mkOffer now a 2 5 10 14 800 1800
               "Matches your preferred airline" rng
    let k := randint 1 2 t.2
    let pool := all_airlines.filter (fun x => decide (x ≠ a))
    let s := standardOffers now pool k.1 k.2
    (t.1 :: s.1, s.2)
  | none =>
    let k := randint 1 2 rng
    let s := standardOffers now all_airlines k.1 k.2
    (s.1, s.2)

/-- `strftime("%H:%M")` on an absolute minute count. -/
def fmtHM (m : Nat) : String :=
  let h := m / 60 % 24
  let mm := m % 60
  (if h < 10 then "0" ++ toString h else toString h) ++ ":" ++
    (if mm < 10 then "0" ++ toString mm else toString mm)

/-- A rendered flight-offer dict, fields as in the Python literal. -/
structure ROffer where
  airline : String
  flight_number : String
  departure_time : String
  arrival_time : String
  price : String
  notes : String
  deriving DecidableEq, Repr

/-- Rendering of one offer into the returned dict. -/
def renderOffer (o : Offer) : ROffer :=
  { airline := o.airline,
    flight_number := o.flight_number,
    departure_time := fmtHM o.departure_min,
    arrival_time := fmtHM o.arrival_min,
    price := toString o.price ++ " EUR",
    notes := o.notes }

/-- The dict returned by `find_flights`. -/
structure FlightsResult where
  status : String
  flights : List ROffer
  deriving DecidableEq, Repr

/-- `find_flights(destination, departure_date, preferences)`.  The
`destination` and `departure_date` arguments are only printed in the
source and never influence the result. -/
def find_flights (now : Nat) (rng : List Nat)
    (destination departure_date : String)
    (preferences : Option (List String)) : FlightsResult :=
  { status := "success",
    flights := (find_flights_raw now rng preferences).1.map renderOffer }

/-! ### Conversation orchestrator -/

/-- One part of an event content (`.text`). -/
structure Part where
  text : String
  deriving DecidableEq, Repr

/-- Event content: a list of parts. -/
structure Content where
  parts : List Part
  deriving DecidableEq, Repr

/-- One event of the controller stream. -/
structure Event where
  is_final_response : Bool
  content : Option Content
  deriving DecidableEq, Repr

/-- Does an event pass the final-response test of the source,
`event.is_final_response() and event.content and event.content.parts`
(content not `None` and parts non-empty)? -/
def finalEventP (e : Event) : Bool :=
  e.is_final_response &&
    (match e.content with
     | none => false
     | some c => !c.parts.isEmpty)

/-- The event loop of `call_agent_async`: returns the first final
response text, or the sentinel when the stream ends without one. -/
def call_agent_async : List Event → String
  | [] => "No response received."
  | e :: es =>
    if e.is_final_response then
      match e.content with
      | some c =>
        match c.parts with
        | p :: _ => p.text
        | [] => call_agent_async es
      | none => call_agent_async es
    else call_agent_async es

/-! ## Helper lemmas about association-list operations -/

theorem lookupKey_setdefaultKey_self {β : Type} (k : String) (dflt : β)
    (l : List (String × β)) :
    lookupKey k (setdefaultKey k dflt l) = some ((lookupKey k l).getD dflt) := by
  induction l with
  | nil => simp [setdefaultKey, lookupKey]
  | cons p rest ih =>
    obtain ⟨k', v⟩ := p
    by_cases h : k' = k
    · subst h; simp [setdefaultKey, lookupKey]
    · simp [setdefaultKey, lookupKey, h, ih]

theorem lookupKey_setdefaultKey_ne {β : Type} (j k : String) (dflt : β)
    (l : List (String × β)) (h : j ≠ k) :
    lookupKey j (setdefaultKey k dflt l) = lookupKey j l := by
  induction l with
  | nil => simp [setdefaultKey, lookupKey, Ne.symm h]
  | cons p rest ih =>
    obtain ⟨k', v⟩ := p
    by_cases hk : k' = k
    · subst hk; simp [setdefaultKey, lookupKey, Ne.symm h]
    · by_cases hj : k' = j
      · subst hj; simp [setdefaultKey, lookupKey, hk]
      · simp [setdefaultKey, lookupKey, hk, hj, ih]

theorem lookupKey_updateKey_self {β : Type} (k : String) (f : β → β)
    (l : List (String × β)) :
    lookupKey k (updateKey k f l) = (lookupKey k l).map f := by
  induction l with
  | nil => simp [updateKey, lookupKey]
  | cons p rest ih =>
    obtain ⟨k', v⟩ := p
    by_cases h : k' = k
    · subst h; simp [updateKey, lookupKey]
    · simp [updateKey, lookupKey, h, ih]

theorem lookupKey_updateKey_ne {β : Type} (j k : String) (f : β → β)
    (l : List (String × β)) (h : j ≠ k) :
    lookupKey j (updateKey k f l) = lookupKey j l := by
  induction l with
  | nil => simp [updateKey, lookupKey]
  | cons p rest ih =>
    obtain ⟨k', v⟩ := p
    by_cases hk : k' = k
    · subst hk; simp [updateKey, lookupKey, Ne.symm h, ih]
    · by_cases hj : k' = j
      · subst hj; simp [updateKey, lookupKey, hk]
      · simp [updateKey, lookupKey, hk, hj, ih]

/-- The two `setdefault` calls of `add` do not change what `search`
returns at the very key being added. -/
theorem search_pre (st : Store) (u c : String) :
    search_by_category (updateKey u (setdefaultKey c [])
      (setdefaultKey u [] st)) u c = search_by_category st u c := by
  simp [search_by_category, lookupKey_updateKey_self,
    lookupKey_setdefaultKey_self]

theorem search_memAdd_self (st : Store) (u c v : String) :
    search_by_category (memAdd st u c v).1 u c =
      (if v ∈ search_by_category st u c then search_by_category st u c
       else search_by_category st u c ++ [v]) := by
  simp only [memAdd, search_pre]
  split
  · next h => exact search_pre st u c
  · next h =>
    simp [search_by_category, lookupKey_updateKey_self,
      lookupKey_setdefaultKey_self]

theorem memAdd_flushed_iff (st : Store) (u c v : String) :
    (memAdd st u c v).2 = true ↔ v ∉ search_by_category st u c := by
  simp only [memAdd, search_pre]
  split <;> simp_all

theorem mem_search_memAdd (st : Store) (u c v : String) :
    v ∈ search_by_category (memAdd st u c v).1 u c := by
  rw [search_memAdd_self]
  split <;> simp_all

theorem search_memAdd_frame (st : Store) (u c v u' c' : String)
    (h : ¬(u' = u ∧ c' = c)) :
    search_by_category (memAdd st u c v).1 u' c' =
      search_by_category st u' c' := by
  by_cases hu : u' = u
  · subst hu
    have hc : c' ≠ c := fun hcc => h ⟨rfl, hcc⟩
    simp only [memAdd, search_pre]
    split
    · simp [search_by_category, lookupKey_updateKey_self,
        lookupKey_setdefaultKey_self, lookupKey_setdefaultKey_ne _ _ _ _ hc]
    · simp [search_by_category, lookupKey_updateKey_self,
        lookupKey_setdefaultKey_self, lookupKey_setdefaultKey_ne _ _ _ _ hc,
        lookupKey_updateKey_ne _ _ _ _ hc]
  · simp only [memAdd, search_pre]
    split <;>
      simp [search_by_category, lookupKey_updateKey_ne _ _ _ _ hu,
        lookupKey_setdefaultKey_ne _ _ _ _ hu]

theorem addState_store (st : MemState) (u c v : String) :
    (addState st u c v).1.store = (memAdd st.store u c v).1 := by
  simp only [addState]
  split <;> simp [save_to_file]

theorem addState_flush (st : MemState) (u c v : String) :
    (addState st u c v).2.1 = (memAdd st.store u c v).2 := by
  simp only [addState]
  split <;> simp_all

theorem addState_ret (st : MemState) (u c v : String) :
    (addState st u c v).2.2 = true := by
  simp only [addState]
  split <;> rfl

theorem addState_file (st : MemState) (u c v : String) :
    (addState st u c v).1.file =
      (if (memAdd st.store u c v).2 then
        some (some (storeToJson (memAdd st.store u c v).1)) else st.file) := by
  simp only [addState]
  split <;> simp_all [save_to_file]

/-! ## Round trip between the store and its JSON serialisation -/

theorem decodeVals_map (vs : List String) :
    decodeVals (vs.map Json.str) = some vs := by
  induction vs with
  | nil => rfl
  | cons s rest ih => simp [decodeVals, ih]

theorem decodeCats_map (cs : Cats) :
    decodeCats (cs.map fun q => (q.1, Json.arr (q.2.map Json.str)))
      = some cs := by
  induction cs with
  | nil => rfl
  | cons q rest ih =>
    obtain ⟨c, vs⟩ := q
    simp [decodeCats, decodeVals_map, ih]

theorem decodeUsers_map (st : Store) :
    decodeUsers (st.map fun p =>
        (p.1, Json.obj (p.2.map fun q => (q.1, Json.arr (q.2.map Json.str)))))
      = some st := by
  induction st with
  | nil => rfl
  | cons p rest ih =>
    obtain ⟨u, cs⟩ := p
    simp [decodeUsers, decodeCats_map, ih]

theorem decode_storeToJson (st : Store) :
    decodeStore (storeToJson st) = some st := by
  simp [storeToJson, decodeStore, decodeUsers_map]

/-! ## Claim theorems for the preference store -/

/-- Claim C1.  Idempotent dedup: starting from any state whose stored
sequence for (user, category) respects the no-duplicates invariant,
calling `add(user, category, value)` twice leaves the value stored
exactly once, the duplicate (second) call performs no flush at all
(hence at most one), and both calls return True. -/
theorem c1_idempotent_dedup (st : MemState) (u c v : String)
    (h : (search_by_category st.store u c).count v ≤ 1) :
    (search_by_category (addState (addState st u c v).1 u c v).1.store u c).count v = 1
    ∧ (addState (addState st u c v).1 u c v).2.1 = false
    ∧ (addState st u c v).2.2 = true
    ∧ (addState (addState st u c v).1 u c v).2.2 = true := by
  by_cases hv : v ∈ search_by_category st.store u c
  · have e1 : search_by_category (addState st u c v).1.store u c
        = search_by_category st.store u c := by
      rw [addState_store, search_memAdd_self, if_pos hv]
    have hv2 : v ∈ search_by_category (addState st u c v).1.store u c := by
      rw [e1]; exact hv
    have e2 : search_by_category (addState (addState st u c v).1 u c v).1.store u c
        = search_by_category st.store u c := by
      rw [addState_store, search_memAdd_self, if_pos hv2, e1]
    refine ⟨?_, ?_, addState_ret _ _ _ _, addState_ret _ _ _ _⟩
    · rw [e2]
      have hne : (search_by_category st.store u c).count v ≠ 0 :=
        fun h0 => (List.count_eq_zero.mp h0) hv
      omega
    · rw [addState_flush]
      cases hb : (memAdd (addState st u c v).1.store u c v).2
      · rfl
      · exact absurd hv2 ((memAdd_flushed_iff _ _ _ _).mp hb)
  · have e1 : search_by_category (addState st u c v).1.store u c
        = search_by_category st.store u c ++ [v] := by
      rw [addState_store, search_memAdd_self, if_neg hv]
    have hv2 : v ∈ search_by_category (addState st u c v).1.store u c := by
      rw [e1]; simp
    have e2 : search_by_category (addState (addState st u c v).1 u c v).1.store u c
        = search_by_category st.store u c ++ [v] := by
      rw [addState_store, search_memAdd_self, if_pos hv2, e1]
    refine ⟨?_, ?_, addState_ret _ _ _ _, addState_ret _ _ _ _⟩
    · rw [e2]
      have h0 : (search_by_category st.store u c).count v = 0 :=
        List.count_eq_zero.mpr hv
      simp [List.count_append, h0]
    · rw [addState_flush]
      cases hb : (memAdd (addState st u c v).1.store u c v).2
      · rfl
      · exact absurd hv2 ((memAdd_flushed_iff _ _ _ _).mp hb)

/-- Witness for C1 at a concrete input: empty store, user Chris,
category food, value sushi. -/
theorem c1_witness :
    (search_by_category (addState (addState (⟨[], none⟩ : MemState)
        "Chris" "food" "sushi").1 "Chris" "food" "sushi").1.store
        "Chris" "food").count "sushi" = 1
    ∧ (addState (addState (⟨[], none⟩ : MemState) "Chris" "food" "sushi").1
        "Chris" "food" "sushi").2.1 = false
    ∧ (addState (⟨[], none⟩ : MemState) "Chris" "food" "sushi").2.2 = true
    ∧ (addState (addState (⟨[], none⟩ : MemState) "Chris" "food" "sushi").1
        "Chris" "food" "sushi").2.2 = true :=
  c1_idempotent_dedup ⟨[], none⟩ "Chris" "food" "sushi" (by decide)

/-- Claim C3, counterexample.  The claim says a backing document that is
present but not parseable as the expected user-to-category-to-list
structure yields an empty store; but only `json.JSONDecodeError` is
caught, so a document holding the valid JSON text `[]` (not the
expected structure) is returned as-is by `_load_from_file`, not
replaced by the empty store. -/
theorem c3_counterexample :
    decodeStore (Json.arr []) = none
    ∧ load_from_file (some (some (Json.arr []))) ≠ Json.obj [] :=
  ⟨rfl, fun h => Json.noConfusion h⟩

/-- Claim C3, amended.  `load()` never fails the caller; an absent
document and a document whose text fails JSON parsing both yield the
empty store; but a document that parses as JSON is returned verbatim,
whatever its structure. -/
theorem c3_load_resilience (doc : FileContent) :
    load_from_file none = Json.obj []
    ∧ load_from_file (some none) = Json.obj []
    ∧ (∀ j : Json, load_from_file (some (some j)) = j)
    ∧ (load_from_file doc = Json.obj []
        ∨ ∃ j : Json, doc = some (some j) ∧ load_from_file doc = j) := by
  refine ⟨rfl, rfl, fun _ => rfl, ?_⟩
  match doc with
  | none => exact Or.inl rfl
  | some none => exact Or.inl rfl
  | some (some j) => exact Or.inr ⟨j, rfl, rfl⟩

/-- Claim C6.  Restart durability: for a state whose backing document
holds the serialisation of the in-memory store (the invariant the class
maintains), after `add(u, c, v)` returns True, re-loading the store
from the document yields a store whose `search(u, c)` contains v. -/
theorem c6_restart_durability (st : MemState) (u c v : String)
    (hsync : st.file = some (some (storeToJson st.store))) :
    (addState st u c v).2.2 = true
    ∧ ∃ m : Store,
        decodeStore (load_from_file (addState st u c v).1.file) = some m
        ∧ v ∈ search_by_category m u c := by
  refine ⟨addState_ret st u c v, ?_⟩
  rw [addState_file]
  by_cases hfl : (memAdd st.store u c v).2
  · rw [if_pos hfl]
    exact ⟨(memAdd st.store u c v).1,
      by simp [load_from_file, decode_storeToJson],
      mem_search_memAdd st.store u c v⟩
  · rw [if_neg hfl, hsync]
    refine ⟨st.store, by simp [load_from_file, decode_storeToJson], ?_⟩
    by_cases hv : v ∈ search_by_category st.store u c
    · exact hv
    · exact absurd ((memAdd_flushed_iff st.store u c v).mpr hv) hfl

/-- Witness for C6 at a concrete input: a fresh store whose file holds
the serialisation of the empty store. -/
theorem c6_witness :
    (addState (⟨[], some (some (storeToJson []))⟩ : MemState)
        "Chris" "food" "sushi").2.2 = true
    ∧ ∃ m : Store,
        decodeStore (load_from_file
            (addState (⟨[], some (some (storeToJson []))⟩ : MemState)
              "Chris" "food" "sushi").1.file) = some m
        ∧ "sushi" ∈ search_by_category m "Chris" "food" :=
  c6_restart_durability ⟨[], some (some (storeToJson []))⟩
    "Chris" "food" "sushi" rfl

/-- Claim C7.  User and category isolation: `add(u, c, v)` leaves
`search(u2, c2)` unchanged for every pair different from (u, c), and
`search` on a store with nothing written returns the empty sequence. -/
theorem c7_user_category_isolation (st : MemState) (u c v u2 c2 : String)
    (h : ¬(u2 = u ∧ c2 = c)) :
    search_by_category (addState st u c v).1.store u2 c2
        = search_by_category st.store u2 c2
    ∧ search_by_category ([] : Store) u2 c2 = [] := by
  refine ⟨?_, rfl⟩
  rw [addState_store]
  exact search_memAdd_frame st.store u c v u2 c2 h

/-- Witness for C7 at a concrete input: saving food sushi for user A
changes nothing for user B, and the hotel category of an empty store is
empty. -/
theorem c7_witness :
    search_by_category (addState (⟨[], none⟩ : MemState)
        "A" "food" "sushi").1.store "B" "hotel"
      = search_by_category (MemState.mk [] none).store "B" "hotel"
    ∧ search_by_category ([] : Store) "B" "hotel" = [] :=
  c7_user_category_isolation ⟨[], none⟩ "A" "food" "sushi" "B" "hotel"
    (by decide)

/-- Claim C9.  Implicit default-user attribution: with no ambient user
binding set on the tool functions, `retrieve_user_preferences` reads
the preferences of the hard-coded default user Chris, and
`save_user_preference` writes under Chris and reports success. -/
theorem c9_default_user (st : MemState) (cat pref : String) :
    retrieve_user_preferences none cat st =
      { status := "success",
        preferences := search_by_category st.store "Chris" cat,
        count := (search_by_category st.store "Chris" cat).length }
    ∧ USER_ID = "Chris"
    ∧ ∃ st2 : MemState,
        save_user_preference true none cat pref st
            = Except.ok (st2,
                { status := "success", message := save_message cat })
        ∧ pref ∈ search_by_category st2.store "Chris" cat := by
  refine ⟨rfl, rfl, ?_⟩
  by_cases hfl : (memAdd st.store USER_ID cat pref).2
  · refine ⟨save_to_file { st with store := (memAdd st.store USER_ID cat pref).1 },
      ?_, ?_⟩
    · simp [save_user_preference, add_io, save_to_file_io, save_to_file, hfl]
    · show pref ∈ search_by_category (memAdd st.store USER_ID cat pref).1 USER_ID cat
      exact mem_search_memAdd st.store USER_ID cat pref
  · refine ⟨{ st with store := (memAdd st.store USER_ID cat pref).1 }, ?_, ?_⟩
    · simp [save_user_preference, add_io, hfl]
    · show pref ∈ search_by_category (memAdd st.store USER_ID cat pref).1 USER_ID cat
      exact mem_search_memAdd st.store USER_ID cat pref

/-- Claim C2 (the code is the bug here).  Evaluation at the failing
input: with the disk refusing the write, `save_user_preference` on a
fresh store lets the raised OSError escape as an unhandled exception
instead of returning a structured result with status error. -/
theorem c2_write_failure_escapes :
    save_user_preference false none "food" "sushi"
        { store := [], file := none }
      = Except.error PyErr.oserror := rfl

/-- Claim C8.  No-final-response fallback: when no event of the stream
passes the final-response test of the source (final flag set, content
present, parts non-empty), `call_agent_async` returns the sentinel
string instead of raising. -/
theorem c8_no_final_response (events : List Event)
    (h : ∀ e ∈ events, finalEventP e = false) :
    call_agent_async events = "No response received." := by
  induction events with
  | nil => rfl
  | cons e es ih =>
    have he : finalEventP e = false := h e (by simp)
    have hrest : ∀ x ∈ es, finalEventP x = false :=
      fun x hx => h x (by simp [hx])
    cases hf : e.is_final_response with
    | false => simp [call_agent_async, hf, ih hrest]
    | true =>
      cases hc : e.content with
      | none => simp [call_agent_async, hf, hc, ih hrest]
      | some cont =>
        cases hp : cont.parts with
        | nil => simp [call_agent_async, hf, hc, hp, ih hrest]
        | cons p ps =>
          exfalso
          simp [finalEventP, hf, hc, hp] at he

/-- Witness for C8 at a concrete stream: two tool-call events, a final
event with no content and a final event with empty parts. -/
theorem c8_witness :
    call_agent_async
        [⟨false, none⟩, ⟨false, some ⟨[⟨"calling tool"⟩]⟩⟩,
         ⟨true, none⟩, ⟨true, some ⟨[]⟩⟩]
      = "No response received." :=
  c8_no_final_response _ (by decide)

/-- Claim C10.  Input independence of the flight search: with the same
preference list and the same stream of random draws (and the same
clock), the result is identical whatever the destination and departure
date are, and the status is success for every input. -/
theorem c10_input_independence (now : Nat) (rng : List Nat)
    (dest1 date1 dest2 date2 : String) (prefs : Option (List String)) :
    find_flights now rng dest1 date1 prefs = find_flights now rng dest2 date2 prefs
    ∧ (find_flights now rng dest1 date1 prefs).status = "success" :=
  ⟨rfl, rfl⟩

/-! ## Helper lemmas about the flight generator -/

theorem randint_bounds (lo hi : Nat) (rng : List Nat) (h : lo ≤ hi) :
    lo ≤ (randint lo hi rng).1 ∧ (randint lo hi rng).1 ≤ hi := by
  cases rng with
  | nil => exact ⟨Nat.le_refl lo, h⟩
  | cons n rest =>
    have hm : n % (hi + 1 - lo) < hi + 1 - lo := Nat.mod_lt _ (by omega)
    simp only [randint]
    omega

theorem pick_airline_eq_first_match (ps : List String) :
    pick_airline ps = first_match_spec ps := by
  induction ps with
  | nil => rfl
  | cons p rest ih =>
    cases hf : all_airlines.find? (fun a => subMatch a p) with
    | some a => simp [pick_airline, first_match_spec, List.findSome?_cons, hf]
    | none =>
      simp only [pick_airline, first_match_spec, List.findSome?_cons, hf]
      exact ih

theorem pick_airline_isSome_iff (ps : List String) :
    (∃ p ∈ ps, ∃ al ∈ all_airlines, subMatch al p = true)
      ↔ ∃ a, pick_airline ps = some a := by
  induction ps with
  | nil => simp [pick_airline]
  | cons p rest ih =>
    cases hf : all_airlines.find? (fun a => subMatch a p) with
    | some a =>
      have hmem : a ∈ all_airlines := List.mem_of_find?_eq_some hf
      have hsm : subMatch a p = true := by simpa using List.find?_some hf
      simp only [pick_airline, hf]
      constructor
      · intro _; exact ⟨a, rfl⟩
      · intro _; exact ⟨p, List.mem_cons_self p rest, a, hmem, hsm⟩
    | none =>
      have hnone : ∀ al ∈ all_airlines, ¬ subMatch al p = true := by
        intro al hal
        simpa using List.find?_eq_none.mp hf al hal
      simp only [pick_airline, hf]
      constructor
      · rintro ⟨q, hq, al, hal, hsm⟩
        rcases List.mem_cons.mp hq with rfl | hq2
        · exact absurd hsm (hnone al hal)
        · exact ih.mp ⟨q, hq2, al, hal, hsm⟩
      · intro hsome
        obtain ⟨q, hq, al, hal, hsm⟩ := ih.mpr hsome
        exact ⟨q, List.mem_cons_of_mem _ hq, al, hal, hsm⟩

theorem mkOffer_spec (now : Nat) (al : String)
    (depLo depHi arrLo arrHi prLo prHi : Nat) (notes : String)
    (rng : List Nat) (hd : depLo ≤ depHi) (ha : arrLo ≤ arrHi)
    (hp : prLo ≤ prHi) :
    (mkOffer now al depLo depHi arrLo arrHi prLo prHi notes rng).1.airline = al
    ∧ (mkOffer now al depLo depHi arrLo arrHi prLo prHi notes rng).1.notes = notes
    ∧ (∃ n, 100 ≤ n ∧ n ≤ 999 ∧
        (mkOffer now al depLo depHi arrLo arrHi prLo prHi notes rng).1.flight_number
          = upper2 al ++ toString n)
    ∧ (∃ d, depLo ≤ d ∧ d ≤ depHi ∧
        (mkOffer now al depLo depHi arrLo arrHi prLo prHi notes rng).1.departure_min
          = now + 60 * d)
    ∧ (∃ hrs, arrLo ≤ hrs ∧ hrs ≤ arrHi ∧
        (mkOffer now al depLo depHi arrLo arrHi prLo prHi notes rng).1.arrival_min
          = now + 60 * hrs)
    ∧ prLo ≤ (mkOffer now al depLo depHi arrLo arrHi prLo prHi notes rng).1.price
    ∧ (mkOffer now al depLo depHi arrLo arrHi prLo prHi notes rng).1.price ≤ prHi := by
  obtain ⟨hn1, hn2⟩ := randint_bounds 100 999 rng (by omega)
  obtain ⟨hd1, hd2⟩ := randint_bounds depLo depHi (randint 100 999 rng).2 hd
  obtain ⟨ha1, ha2⟩ := randint_bounds arrLo arrHi
    (randint depLo depHi (randint 100 999 rng).2).2 ha
  obtain ⟨hp1, hp2⟩ := randint_bounds prLo prHi
    (randint arrLo arrHi (randint depLo depHi (randint 100 999 rng).2).2).2 hp
  exact ⟨rfl, rfl, ⟨_, hn1, hn2, rfl⟩, ⟨_, hd1, hd2, rfl⟩,
    ⟨_, ha1, ha2, rfl⟩, hp1, hp2⟩

theorem standardOffers_length (now : Nat) (pool : List String) (k : Nat)
    (rng : List Nat) : (standardOffers now pool k rng).1.length = k := by
  induction k generalizing rng with
  | zero => rfl
  | succ k ih => simp [standardOffers, ih]

theorem standardOffers_mem (now : Nat) (pool : List String) (k : Nat)
    (rng : List Nat) :
    ∀ o ∈ (standardOffers now pool k rng).1,
      o.notes = "Standard option"
      ∧ (∃ n, 100 ≤ n ∧ n ≤ 999 ∧
          o.flight_number = upper2 o.airline ++ toString n)
      ∧ (∃ d, 2 ≤ d ∧ d ≤ 12 ∧ o.departure_min = now + 60 * d)
      ∧ (∃ hrs, 14 ≤ hrs ∧ hrs ≤ 20 ∧ o.arrival_min = now + 60 * hrs)
      ∧ 400 ≤ o.price ∧ o.price ≤ 1500 := by
  induction k generalizing rng with
  | zero => intro o ho; simp [standardOffers] at ho
  | succ k ih =>
    intro o ho
    simp only [standardOffers] at ho
    rcases List.mem_cons.mp ho with rfl | hmem
    · obtain ⟨hair, hnotes, hfn, hdep, harr, hpr⟩ :=
        mkOffer_spec now (choice pool rng).1 2 12 14 20 400 1500
          "Standard option" (choice pool rng).2 (by omega) (by omega) (by omega)
      refine ⟨hnotes, ?_, hdep, harr, hpr⟩
      rw [hair]
      exact hfn
    · exact ih _ o hmem

theorem find_flights_raw_some (now : Nat) (rng : List Nat)
    (prefs : Option (List String)) (a : String)
    (h : preferred_airline prefs = some a) :
    ∃ k rng2, 1 ≤ k ∧ k ≤ 2 ∧
      (find_flights_raw now rng prefs).1 =
        (mkOffer now a 2 5 10 14 800 1800
            "Matches your preferred airline" rng).1
          :: (standardOffers now
              (all_airlines.filter (fun x => decide (x ≠ a))) k rng2).1 := by
  obtain ⟨h1, h2⟩ := randint_bounds 1 2
    (mkOffer now a 2 5 10 14 800 1800
      "Matches your preferred airline" rng).2 (by omega)
  refine ⟨(randint 1 2 (mkOffer now a 2 5 10 14 800 1800
      "Matches your preferred airline" rng).2).1,
    (randint 1 2 (mkOffer now a 2 5 10 14 800 1800
      "Matches your preferred airline" rng).2).2, h1, h2, ?_⟩
  simp only [find_flights_raw, h]

theorem find_flights_raw_none (now : Nat) (rng : List Nat)
    (prefs : Option (List String))
    (h : preferred_airline prefs = none) :
    ∃ k rng2, 1 ≤ k ∧ k ≤ 2 ∧
      (find_flights_raw now rng prefs).1
        = (standardOffers now all_airlines k rng2).1 := by
  obtain ⟨h1, h2⟩ := randint_bounds 1 2 rng (by omega)
  refine ⟨(randint 1 2 rng).1, (randint 1 2 rng).2, h1, h2, ?_⟩
  simp only [find_flights_raw, h]

/-! ## Claim theorems for the flight generator -/

/-- Claim C4.  Preference-biased generation: the scanned preferred
airline is the first match in preference-list order then catalogue
order; when some preference matches a catalogue airline, the first
returned offer carries that airline and the preference-matching note
and 2 to 3 offers are returned; when none matches, no offer carries the
note and 1 to 2 offers are returned. -/
theorem c4_preference_bias (now : Nat) (rng : List Nat)
    (dest ddate : String) (prefs : List String) :
    pick_airline prefs = first_match_spec prefs
    ∧ ((∃ p ∈ prefs, ∃ al ∈ all_airlines, subMatch al p = true)
        ↔ ∃ a, pick_airline prefs = some a)
    ∧ (∀ a, pick_airline prefs = some a →
        ∃ o rest,
          (find_flights now rng dest ddate (some prefs)).flights = o :: rest
          ∧ o.airline = a
          ∧ o.notes = "Matches your preferred airline"
          ∧ 2 ≤ (o :: rest).length ∧ (o :: rest).length ≤ 3)
    ∧ (pick_airline prefs = none →
        (∀ o ∈ (find_flights now rng dest ddate (some prefs)).flights,
            o.notes ≠ "Matches your preferred airline")
        ∧ 1 ≤ (find_flights now rng dest ddate (some prefs)).flights.length
        ∧ (find_flights now rng dest ddate (some prefs)).flights.length ≤ 2) := by
  refine ⟨pick_airline_eq_first_match prefs, pick_airline_isSome_iff prefs,
    ?_, ?_⟩
  · intro a ha
    have hpa : preferred_airline (some prefs) = some a := ha
    obtain ⟨k, rng2, hk1, hk2, heq⟩ :=
      find_flights_raw_some now rng (some prefs) a hpa
    obtain ⟨hair, hnotes, -, -, -, -⟩ :=
      mkOffer_spec now a 2 5 10 14 800 1800
        "Matches your preferred airline" rng
        (by omega) (by omega) (by omega)
    refine ⟨renderOffer (mkOffer now a 2 5 10 14 800 1800
        "Matches your preferred airline" rng).1,
      ((standardOffers now (all_airlines.filter (fun x => decide (x ≠ a)))
          k rng2).1).map renderOffer, ?_, ?_, ?_, ?_, ?_⟩
    · simp [find_flights, heq]
    · simpa [renderOffer] using hair
    · simpa [renderOffer] using hnotes
    · simp only [List.length_cons, List.length_map, standardOffers_length]
      omega
    · simp only [List.length_cons, List.length_map, standardOffers_length]
      omega
  · intro ha
    have hpa : preferred_airline (some prefs) = none := ha
    obtain ⟨k, rng2, hk1, hk2, heq⟩ :=
      find_flights_raw_none now rng (some prefs) hpa
    refine ⟨?_, ?_, ?_⟩
    · intro o ho
      simp only [find_flights, heq, List.mem_map] at ho
      obtain ⟨x, hx, rfl⟩ := ho
      have hsn := (standardOffers_mem now all_airlines k rng2 x hx).1
      simp [renderOffer, hsn]
    · simp only [find_flights, heq, List.length_map, standardOffers_length]
      omega
    · simp only [find_flights, heq, List.length_map, standardOffers_length]
      omega

/-- Witness for C4: a Delta preference makes the first offer a Delta
offer with the matching note among 2 to 3 offers; a window-seat
preference yields only unmarked offers, 1 to 2 of them. -/
theorem c4_witness :
    (∃ o rest,
        (find_flights 0 [0, 0, 0, 0, 0, 0, 0, 0, 0, 0] "Paris" "2025-01-01"
            (some ["I love Delta"])).flights = o :: rest
        ∧ o.airline = "Delta"
        ∧ o.notes = "Matches your preferred airline"
        ∧ 2 ≤ (o :: rest).length ∧ (o :: rest).length ≤ 3)
    ∧ ((∀ o ∈ (find_flights 0 [0, 0, 0, 0, 0, 0, 0, 0, 0, 0] "Paris"
            "2025-01-01" (some ["I love window seats"])).flights,
          o.notes ≠ "Matches your preferred airline")
        ∧ 1 ≤ (find_flights 0 [0, 0, 0, 0, 0, 0, 0, 0, 0, 0] "Paris"
            "2025-01-01" (some ["I love window seats"])).flights.length
        ∧ (find_flights 0 [0, 0, 0, 0, 0, 0, 0, 0, 0, 0] "Paris"
            "2025-01-01" (some ["I love window seats"])).flights.length ≤ 2) :=
  ⟨(c4_preference_bias 0 [0, 0, 0, 0, 0, 0, 0, 0, 0, 0] "Paris" "2025-01-01"
      ["I love Delta"]).2.2.1 "Delta" (by decide),
   (c4_preference_bias 0 [0, 0, 0, 0, 0, 0, 0, 0, 0, 0] "Paris" "2025-01-01"
      ["I love window seats"]).2.2.2 (by decide)⟩

/-- Claim C5, counterexample.  `random.randint(2, 5)` includes 5, so the
preferred-airline departure offset can be exactly 5 hours, outside the
half-open range [2,5) the claim states: with draws [0, 3, ...] the
first offer departs 300 minutes after now. -/
theorem c5_counterexample :
    ((find_flights_raw 0 [0, 3, 0, 0, 0, 0, 0, 0, 0, 0]
        (some ["I love Delta"])).1.head?.map Offer.departure_min = some 300)
    ∧ ¬ (∃ d, 2 ≤ d ∧ d < 5 ∧ (300 : Nat) = 0 + 60 * d) := by
  refine ⟨by decide, ?_⟩
  rintro ⟨d, h1, h2, h3⟩
  omega

/-- Claim C5, amended.  Field ranges with both ends included, matching
the inclusive semantics of `random.randint`: every flight number is the
two-letter airline prefix plus a number in [100,999]; the preferred
offer has departure offset in [2,5] hours, arrival offset in [10,14]
hours, price in [800,1800]; every standard offer has departure offset
in [2,12] hours, arrival offset in [14,20] hours, price in [400,1500].  -/
theorem c5_offer_ranges (now : Nat) (rng : List Nat)
    (prefs : Option (List String)) :
    (∀ o ∈ (find_flights_raw now rng prefs).1,
        ∃ n, 100 ≤ n ∧ n ≤ 999 ∧
          o.flight_number = upper2 o.airline ++ toString n)
    ∧ (∀ a, preferred_airline prefs = some a →
        ∃ o rest, (find_flights_raw now rng prefs).1 = o :: rest
          ∧ o.airline = a
          ∧ o.notes = "Matches your preferred airline"
          ∧ (∃ d, 2 ≤ d ∧ d ≤ 5 ∧ o.departure_min = now + 60 * d)
          ∧ (∃ hrs, 10 ≤ hrs ∧ hrs ≤ 14 ∧ o.arrival_min = now + 60 * hrs)
          ∧ 800 ≤ o.price ∧ o.price ≤ 1800)
    ∧ (∀ o ∈ (find_flights_raw now rng prefs).1,
        o.notes = "Standard option" →
          (∃ d, 2 ≤ d ∧ d ≤ 12 ∧ o.departure_min = now + 60 * d)
          ∧ (∃ hrs, 14 ≤ hrs ∧ hrs ≤ 20 ∧ o.arrival_min = now + 60 * hrs)
          ∧ 400 ≤ o.price ∧ o.price ≤ 1500) := by
  refine ⟨?_, ?_, ?_⟩
  · intro o ho
    cases hpa : preferred_airline prefs with
    | some a =>
      obtain ⟨k, rng2, hk1, hk2, heq⟩ :=
        find_flights_raw_some now rng prefs a hpa
      rw [heq] at ho
      rcases List.mem_cons.mp ho with rfl | hmem
      · obtain ⟨hair, -, hfn, -, -, -, -⟩ :=
          mkOffer_spec now a 2 5 10 14 800 1800
            "Matches your preferred airline" rng
            (by omega) (by omega) (by omega)
        rw [hair]
        exact hfn
      · exact (standardOffers_mem now _ k rng2 _ hmem).2.1
    | none =>
      obtain ⟨k, rng2, hk1, hk2, heq⟩ :=
        find_flights_raw_none now rng prefs hpa
      rw [heq] at ho
      exact (standardOffers_mem now all_airlines k rng2 o ho).2.1
  · intro a hpa
    obtain ⟨k, rng2, hk1, hk2, heq⟩ :=
      find_flights_raw_some now rng prefs a hpa
    obtain ⟨hair, hnotes, -, hdep, harr, hpr1, hpr2⟩ :=
      mkOffer_spec now a 2 5 10 14 800 1800
        "Matches your preferred airline" rng
        (by omega) (by omega) (by omega)
    exact ⟨_, _, heq, hair, hnotes, hdep, harr, hpr1, hpr2⟩
  · intro o ho hsn
    cases hpa : preferred_airline prefs with
    | some a =>
      obtain ⟨k, rng2, hk1, hk2, heq⟩ :=
        find_flights_raw_some now rng prefs a hpa
      rw [heq] at ho
      rcases List.mem_cons.mp ho with rfl | hmem
      · obtain ⟨-, hnotes, -, -, -, -, -⟩ :=
          mkOffer_spec now a 2 5 10 14 800 1800
            "Matches your preferred airline" rng
            (by omega) (by omega) (by omega)
        exact absurd (hnotes.symm.trans hsn) (by decide)
      · exact (standardOffers_mem now _ k rng2 _ hmem).2.2
    | none =>
      obtain ⟨k, rng2, hk1, hk2, heq⟩ :=
        find_flights_raw_none now rng prefs hpa
      rw [heq] at ho
      exact (standardOffers_mem now all_airlines k rng2 o ho).2.2

/-- Witness for C5 at concrete inputs: the preferred Delta offer and a
concrete standard offer produced by the all-zero draw stream. -/
theorem c5_witness :
    (∃ n, 100 ≤ n ∧ n ≤ 999 ∧
        (Offer.mk "Qatar Airways" "QA100" 120 840 400
            "Standard option").flight_number
          = upper2 (Offer.mk "Qatar Airways" "QA100" 120 840 400
              "Standard option").airline ++ toString n)
    ∧ (∃ o rest,
        (find_flights_raw 0 [0, 0, 0, 0, 0, 0, 0, 0, 0, 0]
            (some ["I love Delta"])).1 = o :: rest
        ∧ o.airline = "Delta"
        ∧ o.notes = "Matches your preferred airline"
        ∧ (∃ d, 2 ≤ d ∧ d ≤ 5 ∧ o.departure_min = 0 + 60 * d)
        ∧ (∃ hrs, 10 ≤ hrs ∧ hrs ≤ 14 ∧ o.arrival_min = 0 + 60 * hrs)
        ∧ 800 ≤ o.price ∧ o.price ≤ 1800)
    ∧ ((∃ d, 2 ≤ d ∧ d ≤ 12 ∧
          (Offer.mk "Qatar Airways" "QA100" 120 840 400
            "Standard option").departure_min = 0 + 60 * d)
        ∧ (∃ hrs, 14 ≤ hrs ∧ hrs ≤ 20 ∧
            (Offer.mk "Qatar Airways" "QA100" 120 840 400
              "Standard option").arrival_min = 0 + 60 * hrs)
        ∧ 400 ≤ (Offer.mk "Qatar Airways" "QA100" 120 840 400
            "Standard option").price
        ∧ (Offer.mk "Qatar Airways" "QA100" 120 840 400
            "Standard option").price ≤ 1500) :=
  ⟨(c5_offer_ranges 0 [0, 0, 0, 0, 0, 0, 0, 0, 0, 0]
      (some ["I love Delta"])).1
      (Offer.mk "Qatar Airways" "QA100" 120 840 400 "Standard option")
      (by decide),
   (c5_offer_ranges 0 [0, 0, 0, 0, 0, 0, 0, 0, 0, 0]
      (some ["I love Delta"])).2.1 "Delta" (by decide),
   (c5_offer_ranges 0 [0, 0, 0, 0, 0, 0, 0, 0, 0, 0]
      (some ["I love Delta"])).2.2
      (Offer.mk "Qatar Airways" "QA100" 120 840 400 "Standard option")
      (by decide) (by decide)⟩

end TravelAgent
